import Mathlib

/-!
Shallow embedding of the token-bucket rate limiter (src/rate-limiter.ts) and
the distributed lock (src/src/rate-limiter.ts) of the repository, together
with theorems settling the specification claims about them.

Timestamps and token counts are modelled as `Int`; all values occurring in
the program are integers and JavaScript `Math.floor(a / b)` on integers with
a nonzero divisor is integer floor division, i.e. `Int.fdiv`.
The bucket table (a JS `Map`) is modelled as an association list with
lookup of the first matching key, in-place update and append of fresh keys.
-/

namespace RateLimiterModel

/-- Semantics of the JavaScript expression `b || 0` on a number `b`:
`0` (falsy) maps to `0`, every other integer is kept. On integers this is
the identity function, which `jsOrZero_eq` records. -/
def jsOrZero (b : Int) : Int := if b = 0 then 0 else b

theorem jsOrZero_eq (b : Int) : jsOrZero b = b := by
  unfold jsOrZero; split <;> simp_all

/-- Configuration as stored by the `RateLimiter` constructor (field
`burstAllowance` already defaulted). -/
structure RateLimitConfig where
  maxRequests : Int
  windowMs : Int
  burstAllowance : Int
  deriving Repr, DecidableEq

/-- Configuration as passed to the constructor: `burstAllowance?` is an
optional field. -/
structure RateLimitConfigInput where
  maxRequests : Int
  windowMs : Int
  burstAllowance : Option Int
  deriving Repr, DecidableEq

/-- The `RateLimiter` constructor (src/rate-limiter.ts lines 27-32): copies
the config and sets `burstAllowance: config.burstAllowance || 0`. It
performs no validation of any field. -/
def mkRateLimiterConfig (c : RateLimitConfigInput) : RateLimitConfig :=
  { maxRequests := c.maxRequests
    windowMs := c.windowMs
    burstAllowance :=
      match c.burstAllowance with
      | none => 0
      | some b => jsOrZero b }

/-- A stored bucket (interface `BucketEntry`). -/
structure BucketEntry where
  tokens : Int
  lastRefill : Int
  totalRequests : Int
  deriving Repr, DecidableEq

/-- A `checkLimit` result (interface `RateLimitResult`). -/
structure RateLimitResult where
  allowed : Bool
  remaining : Int
  resetAt : Int
  retryAfter : Option Int
  deriving Repr, DecidableEq

instance : Inhabited RateLimitResult := ⟨⟨false, 0, 0, none⟩⟩

/-- The `Map<string, _>` of the source, as an association list. -/
abbrev JsMap (α : Type) := List (String × α)

/-- `Map.get`: first binding for the key, if any. -/
def mapGet {α : Type} (s : JsMap α) (k : String) : Option α :=
  match s with
  | [] => none
  | (k', v) :: rest => if k' = k then some v else mapGet rest k

/-- `Map.set`: replace the value of an existing binding in place, or append
a fresh binding. -/
def mapSet {α : Type} (s : JsMap α) (k : String) (v : α) : JsMap α :=
  match s with
  | [] => [(k, v)]
  | (k', v') :: rest => if k' = k then (k', v) :: rest else (k', v') :: mapSet rest k v

/-- `Map.delete`: drop the binding for the key. -/
def mapDelete {α : Type} (s : JsMap α) (k : String) : JsMap α :=
  s.filter fun kv => kv.1 ≠ k

/-- The bucket table of a `RateLimiter`. -/
abbrev Buckets := JsMap BucketEntry

/-- The fresh bucket installed for a never-seen key (lines 40-44):
`tokens = maxRequests + (burstAllowance || 0)`, `lastRefill = now`. -/
def freshBucket (cfg : RateLimitConfig) (now : Int) : BucketEntry :=
  { tokens := cfg.maxRequests + jsOrZero cfg.burstAllowance
    lastRefill := now
    totalRequests := 0 }

/-- Lines 37-46 of `checkLimit`: fetch the bucket, creating and inserting a
fresh one when the key is unseen. -/
def getOrCreate (cfg : RateLimitConfig) (identifier : String) (now : Int)
    (buckets : Buckets) : BucketEntry × Buckets :=
  match mapGet buckets identifier with
  | some b => (b, buckets)
  | none =>
    let b := freshBucket cfg now
    (b, mapSet buckets identifier b)

/-- Lines 48-56 of `checkLimit`: refill tokens based on elapsed time.
`refillCount = Math.floor(elapsed / windowMs) * maxRequests`; when positive,
tokens are topped up, capped at `maxRequests + (burstAllowance || 0)`, and
`lastRefill` is set to `now`. -/
def refillBucket (cfg : RateLimitConfig) (now : Int) (b : BucketEntry) : BucketEntry :=
  let elapsed := now - b.lastRefill
  let refillCount := Int.fdiv elapsed cfg.windowMs * cfg.maxRequests
  if refillCount > 0 then
    let maxTokens := cfg.maxRequests + jsOrZero cfg.burstAllowance
    { b with tokens := min maxTokens (b.tokens + refillCount), lastRefill := now }
  else b

/-- Lines 58-79 of `checkLimit`: attempt to consume one token from the
(already refilled) bucket and build the result. The bucket handed in is the
object already stored in the map, so the state update writes it (or its
consumed version) back. -/
def consumeStep (cfg : RateLimitConfig) (identifier : String) (now : Int)
    (bucket : BucketEntry) (buckets : Buckets) : RateLimitResult × Buckets :=
  let remaining := bucket.tokens - 1
  if remaining < 0 then
    ({ allowed := false
       remaining := 0
       resetAt := bucket.lastRefill + cfg.windowMs
       retryAfter := some (max 0 (bucket.lastRefill + cfg.windowMs - now)) },
     mapSet buckets identifier bucket)
  else
    ({ allowed := true
       remaining := bucket.tokens - 1
       resetAt := bucket.lastRefill + cfg.windowMs
       retryAfter := none },
     mapSet buckets identifier
       { bucket with tokens := bucket.tokens - 1, totalRequests := bucket.totalRequests + 1 })

/-- `RateLimiter.checkLimit` (lines 35-80), with the call time `now` made an
explicit argument in place of `Date.now()`. -/
def checkLimit (cfg : RateLimitConfig) (identifier : String) (now : Int)
    (buckets : Buckets) : RateLimitResult × Buckets :=
  let gc := getOrCreate cfg identifier now buckets
  consumeStep cfg identifier now (refillBucket cfg now gc.1) gc.2

/-- `RateLimiter.resetLimit` (lines 83-85). -/
def resetLimit (identifier : String) (buckets : Buckets) : Buckets :=
  mapDelete buckets identifier

/-- `RateLimiter.getStatus` (lines 88-90). -/
def getStatus (identifier : String) (buckets : Buckets) : Option BucketEntry :=
  mapGet buckets identifier

/-- `RateLimiter.cleanup` (lines 93-106): removes entries with
`now - lastRefill > windowMs * 2` and returns the removed count. -/
def cleanup (cfg : RateLimitConfig) (now : Int) (buckets : Buckets) :
    Nat × Buckets :=
  let expireThreshold := cfg.windowMs * 2
  let kept := buckets.filter fun kv => ¬ now - kv.2.lastRefill > expireThreshold
  (buckets.length - kept.length, kept)

/-- `RateLimiter.getStats` (lines 109-117). -/
def getStats (buckets : Buckets) : Int × Int :=
  ((buckets.length : Int), buckets.foldl (fun sum kv => sum + kv.2.totalRequests) 0)

/-- One public operation on a `RateLimiter`. -/
inductive LimiterOp where
  | check (identifier : String) (now : Int)
  | reset (identifier : String)
  | status (identifier : String)
  | cleanupAt (now : Int)
  | stats
  deriving Repr, DecidableEq

/-- State effect of one operation. -/
def stepOp (cfg : RateLimitConfig) (buckets : Buckets) : LimiterOp → Buckets
  | .check identifier now => (checkLimit cfg identifier now buckets).2
  | .reset identifier => resetLimit identifier buckets
  | .status _ => buckets
  | .cleanupAt now => (cleanup cfg now buckets).2
  | .stats => buckets

/-- Run a sequence of operations from the empty bucket table of a freshly
constructed limiter. -/
def runOps (cfg : RateLimitConfig) (ops : List LimiterOp) : Buckets :=
  ops.foldl (stepOp cfg) []

/-- Run a sequence of `checkLimit` calls for one key at the given times,
collecting the results. -/
def runChecks (cfg : RateLimitConfig) (key : String) (s : Buckets) :
    List Int → List RateLimitResult × Buckets
  | [] => ([], s)
  | t :: ts =>
    let rs := checkLimit cfg key t s
    let rest := runChecks cfg key rs.2 ts
    (rs.1 :: rest.1, rest.2)

/-- Number of `allowed = true` results. -/
def countAllowed (rs : List RateLimitResult) : Nat :=
  (rs.filter fun r => r.allowed).length

/-- Number of `allowed = false` results. -/
def countRefused (rs : List RateLimitResult) : Nat :=
  (rs.filter fun r => !r.allowed).length

end RateLimiterModel

namespace DistributedLockModel

open RateLimiterModel (JsMap mapGet mapSet mapDelete)

/-- The lock table of `DistributedLock` (src/src/rate-limiter.ts line 40):
key to acquisition timestamp. -/
abbrev Locks := JsMap Int

/-- `DistributedLock.acquire` (lines 41-48). The guard
`if (owner && (now - owner) < timeoutMs) return false` uses JS truthiness of
`owner`: an absent entry, and also a stored timestamp `0`, are falsy. -/
def acquire (locks : Locks) (key : String) (now : Int) (timeoutMs : Int) :
    Bool × Locks :=
  match mapGet locks key with
  | some owner =>
    if owner ≠ 0 ∧ now - owner < timeoutMs then (false, locks)
    else (true, mapSet locks key now)
  | none => (true, mapSet locks key now)

/-- `DistributedLock.release` (line 49): unconditionally deletes the entry
for the key; there is no owner-token parameter and no return value. -/
def release (locks : Locks) (key : String) : Locks :=
  mapDelete locks key

end DistributedLockModel

namespace RateLimiterModel

/-! ### Association-list map lemmas -/

theorem mapGet_mapSet_self {α : Type} (s : JsMap α) (k : String) (v : α) :
    mapGet (mapSet s k v) k = some v := by
  induction s with
  | nil => simp [mapGet, mapSet]
  | cons kv rest ih =>
    by_cases h : kv.1 = k
    · simp [mapGet, mapSet, h]
    · simp [mapGet, mapSet, h, ih]

theorem mem_mapSet {α : Type} {s : JsMap α} {k : String} {v : α} {kv : String × α}
    (h : kv ∈ mapSet s k v) : kv ∈ s ∨ kv = (k, v) := by
  induction s with
  | nil => simpa [mapSet] using h
  | cons kv' rest ih =>
    by_cases hk : kv'.1 = k
    · rcases kv' with ⟨k', v'⟩
      simp only [mapSet, if_pos hk] at h
      rcases List.mem_cons.mp h with h | h
      · right; subst hk; simpa using h
      · left; exact List.mem_cons_of_mem _ h
    · rcases kv' with ⟨k', v'⟩
      simp only [mapSet, if_neg hk] at h
      rcases List.mem_cons.mp h with h | h
      · left; simp [h]
      · rcases ih h with h' | h'
        · left; exact List.mem_cons_of_mem _ h'
        · right; exact h'

theorem mapGet_mem {α : Type} {s : JsMap α} {k : String} {v : α}
    (h : mapGet s k = some v) : (k, v) ∈ s := by
  induction s with
  | nil => simp [mapGet] at h
  | cons kv rest ih =>
    rcases kv with ⟨k', v'⟩
    by_cases hk : k' = k
    · simp only [mapGet, if_pos hk] at h
      subst hk
      injection h with h
      simp [h]
    · simp only [mapGet, if_neg hk] at h
      exact List.mem_cons_of_mem _ (ih h)

theorem mapSet_eq_self {α : Type} {s : JsMap α} {k : String} {v : α}
    (h : mapGet s k = some v) : mapSet s k v = s := by
  induction s with
  | nil => simp [mapGet] at h
  | cons kv rest ih =>
    rcases kv with ⟨k', v'⟩
    by_cases hk : k' = k
    · simp only [mapGet, if_pos hk] at h
      injection h with h
      simp [mapSet, hk, h]
    · simp only [mapGet, if_neg hk] at h
      simp [mapSet, hk, ih h]

/-! ### The capacity invariant -/

/-- Every bucket held by the limiter has `0 ≤ tokens ≤ maxRequests +
burstAllowance`. -/
def BucketInv (cfg : RateLimitConfig) (s : Buckets) : Prop :=
  ∀ kv ∈ s, 0 ≤ (kv.2 : BucketEntry).tokens ∧
    kv.2.tokens ≤ cfg.maxRequests + cfg.burstAllowance

instance (cfg : RateLimitConfig) (s : Buckets) : Decidable (BucketInv cfg s) := by
  unfold BucketInv; infer_instance

theorem bucketInv_nil (cfg : RateLimitConfig) : BucketInv cfg [] := by
  intro kv h
  simp at h

theorem bucketInv_mapSet {cfg : RateLimitConfig} {s : Buckets} {k : String}
    {b : BucketEntry} (hs : BucketInv cfg s)
    (hb : 0 ≤ b.tokens ∧ b.tokens ≤ cfg.maxRequests + cfg.burstAllowance) :
    BucketInv cfg (mapSet s k b) := by
  intro kv hmem
  rcases mem_mapSet hmem with h | h
  · exact hs kv h
  · subst h; exact hb

theorem bucketInv_filter {cfg : RateLimitConfig} {s : Buckets}
    (hs : BucketInv cfg s) (p : String × BucketEntry → Bool) :
    BucketInv cfg (s.filter p) := by
  intro kv hmem
  exact hs kv (List.mem_of_mem_filter hmem)

theorem freshBucket_bounds {cfg : RateLimitConfig} (now : Int)
    (hmax : 0 < cfg.maxRequests) (hburst : 0 ≤ cfg.burstAllowance) :
    0 ≤ (freshBucket cfg now).tokens ∧
      (freshBucket cfg now).tokens ≤ cfg.maxRequests + cfg.burstAllowance := by
  simp only [freshBucket, jsOrZero_eq]
  constructor
  · linarith
  · exact le_refl _

theorem refillBucket_bounds {cfg : RateLimitConfig} {b : BucketEntry} (now : Int)
    (hmax : 0 < cfg.maxRequests) (hburst : 0 ≤ cfg.burstAllowance)
    (hb : 0 ≤ b.tokens ∧ b.tokens ≤ cfg.maxRequests + cfg.burstAllowance) :
    0 ≤ (refillBucket cfg now b).tokens ∧
      (refillBucket cfg now b).tokens ≤ cfg.maxRequests + cfg.burstAllowance := by
  unfold refillBucket
  dsimp only
  split
  · rename_i hpos
    simp only [jsOrZero_eq]
    constructor
    · apply le_min
      · linarith
      · linarith
    · exact min_le_left _ _
  · exact hb

theorem consumeStep_inv {cfg : RateLimitConfig} {b : BucketEntry} {bs : Buckets}
    (identifier : String) (now : Int)
    (hb : 0 ≤ b.tokens ∧ b.tokens ≤ cfg.maxRequests + cfg.burstAllowance)
    (hbs : BucketInv cfg bs) :
    BucketInv cfg (consumeStep cfg identifier now b bs).2 := by
  unfold consumeStep
  dsimp only
  split
  · exact bucketInv_mapSet hbs hb
  · rename_i hge
    apply bucketInv_mapSet hbs
    constructor
    · simpa using le_of_not_lt hge
    · have := hb.2
      simp only
      linarith

theorem getOrCreate_bounds {cfg : RateLimitConfig} {s : Buckets}
    (identifier : String) (now : Int)
    (hmax : 0 < cfg.maxRequests) (hburst : 0 ≤ cfg.burstAllowance)
    (hs : BucketInv cfg s) :
    (0 ≤ (getOrCreate cfg identifier now s).1.tokens ∧
      (getOrCreate cfg identifier now s).1.tokens ≤
        cfg.maxRequests + cfg.burstAllowance) ∧
    BucketInv cfg (getOrCreate cfg identifier now s).2 := by
  unfold getOrCreate
  cases h : mapGet s identifier with
  | some b =>
    exact ⟨hs _ (mapGet_mem h), hs⟩
  | none =>
    refine ⟨freshBucket_bounds now hmax hburst, ?_⟩
    exact bucketInv_mapSet hs (freshBucket_bounds now hmax hburst)

theorem checkLimit_inv {cfg : RateLimitConfig} {s : Buckets}
    (identifier : String) (now : Int)
    (hmax : 0 < cfg.maxRequests) (hburst : 0 ≤ cfg.burstAllowance)
    (hs : BucketInv cfg s) :
    BucketInv cfg (checkLimit cfg identifier now s).2 := by
  unfold checkLimit
  have h := getOrCreate_bounds identifier now hmax hburst hs (s := s)
  exact consumeStep_inv identifier now
    (refillBucket_bounds now hmax hburst h.1) h.2

theorem stepOp_inv {cfg : RateLimitConfig} {s : Buckets} (op : LimiterOp)
    (hmax : 0 < cfg.maxRequests) (hburst : 0 ≤ cfg.burstAllowance)
    (hs : BucketInv cfg s) :
    BucketInv cfg (stepOp cfg s op) := by
  cases op with
  | check identifier now => exact checkLimit_inv identifier now hmax hburst hs
  | reset identifier => exact bucketInv_filter hs _
  | status identifier => exact hs
  | cleanupAt now => exact bucketInv_filter hs _
  | stats => exact hs

/-! ### Floor-division helpers -/

theorem fdiv_nonneg_of_nonneg {a b : Int} (ha : 0 ≤ a) (hb : 0 ≤ b) :
    0 ≤ Int.fdiv a b := by
  rw [Int.fdiv_eq_ediv _ hb]
  exact Int.ediv_nonneg ha hb

theorem fdiv_eq_zero_of_lt {a b : Int} (ha : 0 ≤ a) (hab : a < b) :
    Int.fdiv a b = 0 := by
  rw [Int.fdiv_eq_ediv _ (le_trans ha (le_of_lt hab))]
  exact Int.ediv_eq_zero_of_lt ha hab

theorem one_le_fdiv {a w : Int} (hw : 0 < w) (h : w ≤ a) : 1 ≤ Int.fdiv a w := by
  rw [Int.fdiv_eq_ediv _ (le_of_lt hw)]
  exact (Int.le_ediv_iff_mul_le hw).mpr (by linarith)

theorem fdiv_nonpos_of_lt {a w : Int} (hw : 0 < w) (h : a < w) :
    Int.fdiv a w ≤ 0 := by
  rcases le_or_lt 0 a with ha | ha
  · exact le_of_eq (fdiv_eq_zero_of_lt ha h)
  · rw [Int.fdiv_eq_ediv _ (le_of_lt hw)]
    exact le_of_lt (Int.ediv_neg' ha hw)

/-! ### Characterizations of the `checkLimit` stages -/

theorem getOrCreate_of_some {cfg : RateLimitConfig} {identifier : String}
    {now : Int} {s : Buckets} {b : BucketEntry}
    (h : mapGet s identifier = some b) :
    getOrCreate cfg identifier now s = (b, s) := by
  simp [getOrCreate, h]

theorem getOrCreate_of_none {cfg : RateLimitConfig} {identifier : String}
    {now : Int} {s : Buckets} (h : mapGet s identifier = none) :
    getOrCreate cfg identifier now s =
      (freshBucket cfg now, mapSet s identifier (freshBucket cfg now)) := by
  simp [getOrCreate, h]

theorem refillBucket_of_no_refill {cfg : RateLimitConfig} {now : Int}
    {b : BucketEntry}
    (h : Int.fdiv (now - b.lastRefill) cfg.windowMs * cfg.maxRequests ≤ 0) :
    refillBucket cfg now b = b := by
  unfold refillBucket
  dsimp only
  rw [if_neg (not_lt.mpr h)]

theorem refillBucket_of_refill {cfg : RateLimitConfig} {now : Int}
    {b : BucketEntry}
    (h : 0 < Int.fdiv (now - b.lastRefill) cfg.windowMs * cfg.maxRequests) :
    refillBucket cfg now b =
      { b with
          tokens := min (cfg.maxRequests + cfg.burstAllowance)
            (b.tokens + Int.fdiv (now - b.lastRefill) cfg.windowMs * cfg.maxRequests)
          lastRefill := now } := by
  unfold refillBucket
  dsimp only
  rw [if_pos h, jsOrZero_eq]

theorem refillBucket_freshBucket (cfg : RateLimitConfig) (now : Int) :
    refillBucket cfg now (freshBucket cfg now) = freshBucket cfg now := by
  apply refillBucket_of_no_refill
  simp [freshBucket]

theorem consumeStep_of_fail {cfg : RateLimitConfig} {identifier : String}
    {now : Int} {b : BucketEntry} {bs : Buckets} (h : b.tokens < 1) :
    consumeStep cfg identifier now b bs =
      ({ allowed := false
         remaining := 0
         resetAt := b.lastRefill + cfg.windowMs
         retryAfter := some (max 0 (b.lastRefill + cfg.windowMs - now)) },
       mapSet bs identifier b) := by
  unfold consumeStep
  dsimp only
  rw [if_pos (by linarith)]

theorem consumeStep_of_succeed {cfg : RateLimitConfig} {identifier : String}
    {now : Int} {b : BucketEntry} {bs : Buckets} (h : 1 ≤ b.tokens) :
    consumeStep cfg identifier now b bs =
      ({ allowed := true
         remaining := b.tokens - 1
         resetAt := b.lastRefill + cfg.windowMs
         retryAfter := none },
       mapSet bs identifier
         { b with tokens := b.tokens - 1, totalRequests := b.totalRequests + 1 }) := by
  unfold consumeStep
  dsimp only
  rw [if_neg (by simp; linarith)]

theorem foldl_stepOp_inv {cfg : RateLimitConfig} (ops : List LimiterOp)
    (hmax : 0 < cfg.maxRequests) (hburst : 0 ≤ cfg.burstAllowance) :
    ∀ s : Buckets, BucketInv cfg s → BucketInv cfg (ops.foldl (stepOp cfg) s) := by
  induction ops with
  | nil => intro s hs; exact hs
  | cons op rest ih =>
    intro s hs
    exact ih _ (stepOp_inv op hmax hburst hs)

/-! ### Claim theorems -/

/-- C1: for every `checkLimit(clientKey)` call, writing `b` for the addressed
bucket after the refill step, if the one-token consumption succeeds
(`1 ≤ b.tokens`) the result is `allowed = true`, `remaining` is the token
count after the consumption, and `resetAt = lastRefill + windowMs`; if it
fails (`b.tokens < 1`) the result is `allowed = false`, `remaining = 0`,
`resetAt = lastRefill + windowMs` and
`retryAfter = max 0 (lastRefill + windowMs - now)`. -/
theorem checkLimit_result_correct (cfg : RateLimitConfig) (identifier : String)
    (now : Int) (s : Buckets) :
    (1 ≤ (refillBucket cfg now (getOrCreate cfg identifier now s).1).tokens →
      (checkLimit cfg identifier now s).1 =
        { allowed := true
          remaining := (refillBucket cfg now (getOrCreate cfg identifier now s).1).tokens - 1
          resetAt :=
            (refillBucket cfg now (getOrCreate cfg identifier now s).1).lastRefill +
              cfg.windowMs
          retryAfter := none }) ∧
    ((refillBucket cfg now (getOrCreate cfg identifier now s).1).tokens < 1 →
      (checkLimit cfg identifier now s).1 =
        { allowed := false
          remaining := 0
          resetAt :=
            (refillBucket cfg now (getOrCreate cfg identifier now s).1).lastRefill +
              cfg.windowMs
          retryAfter :=
            some (max 0
              ((refillBucket cfg now (getOrCreate cfg identifier now s).1).lastRefill +
                cfg.windowMs - now)) }) := by
  constructor
  · intro h
    unfold checkLimit
    rw [consumeStep_of_succeed h]
  · intro h
    unfold checkLimit
    rw [consumeStep_of_fail h]

/-- Witness for C1: both branches at concrete inputs. A fresh key with
config `(5, 1000, 2)` is admitted with `remaining = 6`; a key whose bucket
is empty is refused at `now = 5` with `retryAfter = 995`. -/
theorem checkLimit_result_correct_witness :
    (checkLimit ⟨5, 1000, 2⟩ "k" 0 []).1 =
      { allowed := true, remaining := 6, resetAt := 1000, retryAfter := none } ∧
    (checkLimit ⟨1, 1000, 0⟩ "k" 5 [("k", ⟨0, 0, 1⟩)]).1 =
      { allowed := false, remaining := 0, resetAt := 1000, retryAfter := some 995 } := by
  constructor
  · exact ((checkLimit_result_correct ⟨5, 1000, 2⟩ "k" 0 []).1 (by decide)).trans (by decide)
  · exact ((checkLimit_result_correct ⟨1, 1000, 0⟩ "k" 5 [("k", ⟨0, 0, 1⟩)]).2
      (by decide)).trans (by decide)

/-- C2: for every configuration with `maxRequests > 0`, `windowMs > 0` and
`burstAllowance ≥ 0` and every finite sequence of `checkLimit`, `resetLimit`,
`getStatus`, `cleanup` and `getStats` operations, every bucket held by the
limiter satisfies `0 ≤ tokens ≤ maxRequests + burstAllowance`. -/
theorem capacity_invariant (cfg : RateLimitConfig) (ops : List LimiterOp)
    (hmax : 0 < cfg.maxRequests) (hwin : 0 < cfg.windowMs)
    (hburst : 0 ≤ cfg.burstAllowance) :
    BucketInv cfg (runOps cfg ops) :=
  foldl_stepOp_inv ops hmax hburst [] (bucketInv_nil cfg)

/-- Witness for C2 on a concrete operation sequence. -/
theorem capacity_invariant_witness :
    BucketInv ⟨5, 1000, 2⟩ (runOps ⟨5, 1000, 2⟩
      [LimiterOp.check "a" 0, LimiterOp.check "a" 10, LimiterOp.check "b" 10,
       LimiterOp.reset "b", LimiterOp.status "a", LimiterOp.check "a" 1500,
       LimiterOp.cleanupAt 5000, LimiterOp.stats]) :=
  capacity_invariant _ _ (by decide) (by decide) (by decide)

/-- C3: for a stored bucket and a `checkLimit` call at `now ≥ lastRefill`
(with a valid config), the refill step is governed by
`increments = floor((now - lastRefill) / windowMs) ≥ 0`: when
`increments > 0` it sets `tokens` to exactly
`min (maxRequests + burstAllowance) (tokens + increments * maxRequests)` —
the added amount capped at the combined ceiling — and anchors `lastRefill`
to `now` itself; when `increments = 0` the bucket is untouched; and a bucket
within the capacity bound stays within it. -/
theorem refill_window_increments (cfg : RateLimitConfig) (b : BucketEntry)
    (now : Int) (hmax : 0 < cfg.maxRequests) (hwin : 0 < cfg.windowMs)
    (hlr : b.lastRefill ≤ now) :
    0 ≤ Int.fdiv (now - b.lastRefill) cfg.windowMs ∧
    (0 < Int.fdiv (now - b.lastRefill) cfg.windowMs →
      refillBucket cfg now b =
        { b with
            tokens := min (cfg.maxRequests + cfg.burstAllowance)
              (b.tokens + Int.fdiv (now - b.lastRefill) cfg.windowMs * cfg.maxRequests)
            lastRefill := now }) ∧
    (Int.fdiv (now - b.lastRefill) cfg.windowMs = 0 → refillBucket cfg now b = b) ∧
    (b.tokens ≤ cfg.maxRequests + cfg.burstAllowance →
      (refillBucket cfg now b).tokens ≤ cfg.maxRequests + cfg.burstAllowance) := by
  have hinc : 0 ≤ Int.fdiv (now - b.lastRefill) cfg.windowMs :=
    fdiv_nonneg_of_nonneg (by linarith) (le_of_lt hwin)
  refine ⟨hinc, ?_, ?_, ?_⟩
  · intro hpos
    exact refillBucket_of_refill (mul_pos hpos hmax)
  · intro hzero
    apply refillBucket_of_no_refill
    rw [hzero, zero_mul]
  · intro hcap
    rcases lt_or_eq_of_le hinc with hpos | hzero
    · rw [refillBucket_of_refill (mul_pos hpos hmax)]
      exact min_le_left _ _
    · rw [refillBucket_of_no_refill (by rw [← hzero, zero_mul])]
      exact hcap

/-- Witness for C3: two whole windows elapsed; the bucket refills from `0`
to the cap `7 = min 7 (0 + 2 * 5)` and `lastRefill` jumps to `2500` (call
time, not the window boundary `2000`). -/
theorem refill_window_increments_witness :
    refillBucket ⟨5, 1000, 2⟩ 2500 ⟨0, 0, 7⟩ = ⟨7, 2500, 7⟩ :=
  ((refill_window_increments ⟨5, 1000, 2⟩ ⟨0, 0, 7⟩ 2500 (by decide) (by decide)
    (by decide)).2.1 (by decide)).trans (by decide)

/-- C4 (code evidence): the `RateLimiter` constructor performs no validation.
It accepts `maxRequests = 0` (and a negative `windowMs` and `burstAllowance`)
and the resulting limiter then produces runtime throttling decisions: with
`maxRequests = 0` every request on a fresh key is refused at run time. -/
theorem constructor_accepts_invalid_config :
    mkRateLimiterConfig ⟨0, 1000, none⟩ = ⟨0, 1000, 0⟩ ∧
    (checkLimit (mkRateLimiterConfig ⟨0, 1000, none⟩) "client" 5 []).1 =
      { allowed := false, remaining := 0, resetAt := 1005, retryAfter := some 1000 } ∧
    mkRateLimiterConfig ⟨5, -1, some (-3)⟩ = ⟨5, -1, -3⟩ := by
  decide

end RateLimiterModel

namespace DistributedLockModel

open RateLimiterModel (mapGet mapSet mapGet_mapSet_self)

/-- C5 (code evidence): `DistributedLock.release` takes no owner token and
returns no success flag; it unconditionally deletes the entry for the key.
Releasing a lock held since timestamp 100 removes it no matter who calls,
so a non-owner release does mutate state and the lock does not stay held. -/
theorem release_ignores_ownership :
    release [("x", 100)] "x" = [] ∧
    mapGet (release [("x", 100)] "x") "x" = none := by
  decide

/-- C6 counterexample: a lock acquired at time 100 with `ttl = 5000`, probed
at `now = 5100`, has `now - acquiredAt = 5000`, which is not `> ttl`, so by
the claim the entry is live and the acquire must be refused; the code treats
it as free and the acquire succeeds. -/
theorem acquire_boundary_counterexample :
    (acquire [("x", 100)] "x" 5100 5000).1 = true ∧
    ¬ (mapGet ([("x", 100)] : Locks) "x" = none ∨ 5100 - 100 > 5000) := by
  decide

/-- C6 amended: for every key whose stored timestamp is nonzero, `acquire`
refuses exactly when the held entry satisfies `now - acquiredAt < timeoutMs`
— the boundary `now - acquiredAt = timeoutMs` already counts as expired, and
the deadline is judged against the acquiring call's own `timeoutMs`, not a
ttl stored with the entry. A refused acquire leaves the lock table
unchanged; a successful one installs `now` for the key and reports success
as the boolean `true` rather than a fresh owner token. In particular, of two
sequential acquires before expiry without a release, the first succeeds and
the second is refused. -/
theorem acquire_refuses_live_entry (locks : Locks) (key : String)
    (now timeoutMs : Int) (hnz : mapGet locks key ≠ some 0) :
    ((acquire locks key now timeoutMs).1 = false ↔
      ∃ t, mapGet locks key = some t ∧ now - t < timeoutMs) ∧
    ((acquire locks key now timeoutMs).1 = false →
      (acquire locks key now timeoutMs).2 = locks) ∧
    ((acquire locks key now timeoutMs).1 = true →
      mapGet (acquire locks key now timeoutMs).2 key = some now) := by
  unfold acquire
  cases h : mapGet locks key with
  | none =>
    refine ⟨?_, ?_, ?_⟩
    · simp [h]
    · intro hfalse
      simp at hfalse
    · intro _
      exact mapGet_mapSet_self locks key now
  | some t =>
    dsimp only
    have ht : t ≠ 0 := fun he => hnz (he ▸ h)
    by_cases hlt : now - t < timeoutMs
    · rw [if_pos ⟨ht, hlt⟩]
      refine ⟨iff_of_true rfl ⟨t, rfl, hlt⟩, fun _ => rfl, ?_⟩
      intro htrue
      simp at htrue
    · rw [if_neg (fun hc => hlt hc.2)]
      refine ⟨?_, ?_, fun _ => mapGet_mapSet_self locks key now⟩
      · refine iff_of_false (by simp) ?_
        rintro ⟨t', ht', hlt'⟩
        injection ht' with ht'
        exact hlt (ht' ▸ hlt')
      · intro hfalse
        simp at hfalse

/-- Witness for the amended C6: the lock table produced by a successful
acquire of "x" at time 1000 (ttl 5000) refuses a second acquire at time
4000, leaving the table unchanged. -/
theorem acquire_refuses_live_entry_witness :
    (acquire [("x", 1000)] "x" 4000 5000).1 = false ∧
    (acquire [("x", 1000)] "x" 4000 5000).2 = [("x", 1000)] := by
  have h := acquire_refuses_live_entry [("x", 1000)] "x" 4000 5000 (by decide)
  have hf : (acquire [("x", 1000)] "x" 4000 5000).1 = false :=
    h.1.mpr ⟨1000, by decide, by decide⟩
  exact ⟨hf, h.2.1 hf⟩

end DistributedLockModel

namespace RateLimiterModel

/-! ### Further `checkLimit` lemmas -/

theorem checkLimit_eq_of_some {cfg : RateLimitConfig} {identifier : String}
    {now : Int} {s : Buckets} {b : BucketEntry}
    (h : mapGet s identifier = some b) :
    checkLimit cfg identifier now s =
      consumeStep cfg identifier now (refillBucket cfg now b) s := by
  unfold checkLimit
  dsimp only
  rw [getOrCreate_of_some h]

theorem checkLimit_eq_of_none {cfg : RateLimitConfig} {identifier : String}
    {now : Int} {s : Buckets} (h : mapGet s identifier = none) :
    checkLimit cfg identifier now s =
      consumeStep cfg identifier now (refillBucket cfg now (freshBucket cfg now))
        (mapSet s identifier (freshBucket cfg now)) := by
  unfold checkLimit
  dsimp only
  rw [getOrCreate_of_none h]

theorem countAllowed_cons_of_pos {r : RateLimitResult} (rs : List RateLimitResult)
    (h : r.allowed = true) : countAllowed (r :: rs) = countAllowed rs + 1 := by
  simp [countAllowed, List.filter_cons, h]

theorem countAllowed_cons_of_neg {r : RateLimitResult} (rs : List RateLimitResult)
    (h : r.allowed = false) : countAllowed (r :: rs) = countAllowed rs := by
  simp [countAllowed, List.filter_cons, h]

theorem countAllowed_add_countRefused (rs : List RateLimitResult) :
    countAllowed rs + countRefused rs = rs.length := by
  induction rs with
  | nil => simp [countAllowed, countRefused]
  | cons r rest ih =>
    by_cases hr : r.allowed <;>
      simp [countAllowed, countRefused, List.filter_cons, hr] at ih ⊢ <;>
      omega

theorem runChecks_length (cfg : RateLimitConfig) (key : String) (s : Buckets)
    (ts : List Int) : (runChecks cfg key s ts).1.length = ts.length := by
  induction ts generalizing s with
  | nil => simp [runChecks]
  | cons t rest ih => simp [runChecks, ih]

/-- With config `(10, 1000, 0)`, running any sequence of `checkLimit` calls
on a single-bucket state whose bucket was last refilled at `t0`, with all
call times before `t0 + 1000`, admits exactly `min (number of calls) tokens`
requests: no refill occurs within the window and each admitted call consumes
one token. -/
theorem runChecks_singleton_count (key : String) (t0 : Int) :
    ∀ (ts : List Int) (tok req : Int), 0 ≤ tok →
      (∀ t ∈ ts, t - t0 < 1000) →
      countAllowed (runChecks ⟨10, 1000, 0⟩ key [(key, ⟨tok, t0, req⟩)] ts).1 =
        min ts.length tok.toNat := by
  intro ts
  induction ts with
  | nil =>
    intro tok req htok hin
    simp [runChecks, countAllowed]
  | cons t rest ih =>
    intro tok req htok hin
    have hkey : mapGet [(key, (⟨tok, t0, req⟩ : BucketEntry))] key =
        some ⟨tok, t0, req⟩ := by
      simp [mapGet]
    have hfd : Int.fdiv (t - t0) 1000 ≤ 0 :=
      fdiv_nonpos_of_lt (by norm_num) (hin t (List.mem_cons_self t rest))
    have hrf : refillBucket ⟨10, 1000, 0⟩ t ⟨tok, t0, req⟩ = ⟨tok, t0, req⟩ := by
      apply refillBucket_of_no_refill
      have := mul_le_mul_of_nonneg_right hfd (show (0 : Int) ≤ 10 by norm_num)
      simpa using this
    have hin' : ∀ u ∈ rest, u - t0 < 1000 := fun u hu =>
      hin u (List.mem_cons_of_mem t hu)
    rcases lt_or_le tok 1 with h1 | h1
    · have htok0 : tok = 0 := le_antisymm (by linarith) htok
      subst htok0
      have hcl : checkLimit ⟨10, 1000, 0⟩ key t [(key, ⟨0, t0, req⟩)] =
          ({ allowed := false, remaining := 0, resetAt := t0 + 1000,
             retryAfter := some (max 0 (t0 + 1000 - t)) },
           [(key, ⟨0, t0, req⟩)]) := by
        rw [checkLimit_eq_of_some hkey, hrf, consumeStep_of_fail (by norm_num),
          mapSet_eq_self hkey]
      simp only [runChecks, hcl]
      rw [countAllowed_cons_of_neg _ rfl, ih 0 req le_rfl hin']
      simp only [List.length_cons]
      omega
    · have hcl : checkLimit ⟨10, 1000, 0⟩ key t [(key, ⟨tok, t0, req⟩)] =
          ({ allowed := true, remaining := tok - 1, resetAt := t0 + 1000,
             retryAfter := none },
           [(key, ⟨tok - 1, t0, req + 1⟩)]) := by
        rw [checkLimit_eq_of_some hkey, hrf, consumeStep_of_succeed h1]
        simp [mapSet]
      simp only [runChecks, hcl]
      rw [countAllowed_cons_of_pos _ rfl, ih (tok - 1) (req + 1) (by linarith) hin']
      simp only [List.length_cons]
      omega

/-! ### Claim theorems (continued) -/

set_option maxRecDepth 4000 in
/-- C7 counterexample: with `maxRequests = 5`, `windowMs = 1000`,
`burstAllowance = 2` and a fresh key, after seven admitted calls and one
refused call at time 0, the next call at time 1000 (one full window later)
is allowed but reports `remaining = 4`, not `remaining = 6` as the claim
states: the refused call left 0 tokens, one window refills 5, and the
admitted call consumes 1. -/
theorem burst_scenario_counterexample :
    (runChecks ⟨5, 1000, 2⟩ "k" [] [0, 0, 0, 0, 0, 0, 0, 0, 1000]).1.getLast? =
      some { allowed := true, remaining := 4, resetAt := 2000, retryAfter := none } ∧
    (4 : Int) ≠ 6 := by
  decide

set_option maxRecDepth 4000 in
/-- C7 amended: with `maxRequests = 5`, `windowMs = 1000`,
`burstAllowance = 2`, starting from a never-seen key, the first 7 calls
within the window are allowed, the 8th is refused with `retryAfter = 1000 >
0`, and the next call after the window elapses is allowed and reports
`remaining = 4` (5 refilled into the emptied bucket, minus the one
consumed). -/
theorem burst_scenario_amended :
    (runChecks ⟨5, 1000, 2⟩ "k" [] [0, 0, 0, 0, 0, 0, 0, 0, 1000]).1 =
      [{ allowed := true, remaining := 6, resetAt := 1000, retryAfter := none },
       { allowed := true, remaining := 5, resetAt := 1000, retryAfter := none },
       { allowed := true, remaining := 4, resetAt := 1000, retryAfter := none },
       { allowed := true, remaining := 3, resetAt := 1000, retryAfter := none },
       { allowed := true, remaining := 2, resetAt := 1000, retryAfter := none },
       { allowed := true, remaining := 1, resetAt := 1000, retryAfter := none },
       { allowed := true, remaining := 0, resetAt := 1000, retryAfter := none },
       { allowed := false, remaining := 0, resetAt := 1000, retryAfter := some 1000 },
       { allowed := true, remaining := 4, resetAt := 2000, retryAfter := none }] := by
  decide

/-- C8: with `maxRequests = 10`, `burstAllowance = 0` (window 1000), fifty
`checkLimit` calls on a fresh key, issued concurrently — each call body has
no suspension point, so every interleaving is some sequential order of the
fifty atomic calls, at arbitrary per-call times within the window of the
first — yield exactly 10 `allowed = true` and 40 `allowed = false` results. -/
theorem fifty_concurrent_checks (t0 : Int) (ts : List Int)
    (hlen : ts.length = 49) (hin : ∀ t ∈ ts, t - t0 < 1000) :
    countAllowed (runChecks ⟨10, 1000, 0⟩ "k" [] (t0 :: ts)).1 = 10 ∧
    countRefused (runChecks ⟨10, 1000, 0⟩ "k" [] (t0 :: ts)).1 = 40 := by
  have hfresh : freshBucket (⟨10, 1000, 0⟩ : RateLimitConfig) t0 = ⟨10, t0, 0⟩ := by
    simp [freshBucket, jsOrZero]
  have hcl : checkLimit ⟨10, 1000, 0⟩ "k" t0 [] =
      ({ allowed := true, remaining := 9, resetAt := t0 + 1000, retryAfter := none },
       [("k", ⟨9, t0, 1⟩)]) := by
    rw [checkLimit_eq_of_none (by simp [mapGet]), refillBucket_freshBucket,
      consumeStep_of_succeed (by rw [hfresh]; norm_num)]
    rw [hfresh]
    simp [mapSet]
  have hrest := runChecks_singleton_count "k" t0 ts 9 1 (by norm_num) hin
  have hcount : countAllowed (runChecks ⟨10, 1000, 0⟩ "k" [] (t0 :: ts)).1 = 10 := by
    simp only [runChecks, hcl]
    rw [countAllowed_cons_of_pos _ rfl, hrest, hlen]
    decide
  refine ⟨hcount, ?_⟩
  have hsum := countAllowed_add_countRefused
    (runChecks ⟨10, 1000, 0⟩ "k" [] (t0 :: ts)).1
  have hlen' := runChecks_length (⟨10, 1000, 0⟩ : RateLimitConfig) "k" [] (t0 :: ts)
  rw [List.length_cons, hlen] at hlen'
  omega

/-- Witness for C8: fifty simultaneous calls at time 0. -/
theorem fifty_concurrent_checks_witness :
    countAllowed (runChecks ⟨10, 1000, 0⟩ "k" [] (0 :: List.replicate 49 0)).1 = 10 ∧
    countRefused (runChecks ⟨10, 1000, 0⟩ "k" [] (0 :: List.replicate 49 0)).1 = 40 :=
  fifty_concurrent_checks 0 (List.replicate 49 0) (by decide) (by decide)

/-- C9: with a validly configured limiter (`maxRequests ≥ 1`,
`windowMs > 0`, `burstAllowance ≥ 0`) in any state reachable by a sequence
of operations — which in particular covers non-decreasing call times —
every `checkLimit` call that returns `allowed = false` leaves the bucket
table completely unchanged, and the rejection happens on an existing bucket
in which the refill step was a no-op. -/
theorem refusal_leaves_state_unchanged (cfg : RateLimitConfig)
    (ops : List LimiterOp) (identifier : String) (now : Int)
    (hmax : 1 ≤ cfg.maxRequests) (hwin : 0 < cfg.windowMs)
    (hburst : 0 ≤ cfg.burstAllowance)
    (href : (checkLimit cfg identifier now (runOps cfg ops)).1.allowed = false) :
    (checkLimit cfg identifier now (runOps cfg ops)).2 = runOps cfg ops ∧
    ∃ b, mapGet (runOps cfg ops) identifier = some b ∧
      refillBucket cfg now b = b := by
  have hinv : BucketInv cfg (runOps cfg ops) :=
    foldl_stepOp_inv ops (by linarith) hburst [] (bucketInv_nil cfg)
  cases hm : mapGet (runOps cfg ops) identifier with
  | none =>
    rw [checkLimit_eq_of_none hm, refillBucket_freshBucket,
      consumeStep_of_succeed (by simp only [freshBucket, jsOrZero_eq]; linarith)]
      at href
    simp at href
  | some b =>
    have hb := hinv _ (mapGet_mem hm)
    rcases le_or_lt (Int.fdiv (now - b.lastRefill) cfg.windowMs * cfg.maxRequests) 0
      with hrc | hrc
    · have hrf := refillBucket_of_no_refill hrc
      rw [checkLimit_eq_of_some hm, hrf] at href ⊢
      rcases lt_or_le b.tokens 1 with htok | htok
      · rw [consumeStep_of_fail htok] at href ⊢
        exact ⟨mapSet_eq_self hm, b, rfl, hrf⟩
      · rw [consumeStep_of_succeed htok] at href
        simp at href
    · have hrc1 : 1 ≤ Int.fdiv (now - b.lastRefill) cfg.windowMs * cfg.maxRequests :=
        hrc
      rw [checkLimit_eq_of_some hm, refillBucket_of_refill hrc,
        consumeStep_of_succeed (le_min (by linarith) (by linarith [hb.1]))] at href
      simp at href

/-- Witness for C9: a limiter with `maxRequests = 1` that has already served
the key refuses the second call and the bucket table is untouched. -/
theorem refusal_leaves_state_unchanged_witness :
    (checkLimit ⟨1, 1000, 0⟩ "k" 0
        (runOps ⟨1, 1000, 0⟩ [LimiterOp.check "k" 0])).2 =
      runOps ⟨1, 1000, 0⟩ [LimiterOp.check "k" 0] ∧
    ∃ b, mapGet (runOps ⟨1, 1000, 0⟩ [LimiterOp.check "k" 0]) "k" = some b ∧
      refillBucket ⟨1, 1000, 0⟩ 0 b = b :=
  refusal_leaves_state_unchanged ⟨1, 1000, 0⟩ [LimiterOp.check "k" 0] "k" 0
    (by decide) (by decide) (by decide) (by decide)

theorem consumeStep_resetAt_future {cfg : RateLimitConfig} {identifier : String}
    {now : Int} {b : BucketEntry} {bs : Buckets}
    (hb : now < b.lastRefill + cfg.windowMs) :
    now < (consumeStep cfg identifier now b bs).1.resetAt ∧
    ((consumeStep cfg identifier now b bs).1.allowed = false →
      (consumeStep cfg identifier now b bs).1.retryAfter =
        some ((consumeStep cfg identifier now b bs).1.resetAt - now) ∧
      0 < (consumeStep cfg identifier now b bs).1.resetAt - now) := by
  rcases lt_or_le b.tokens 1 with h | h
  · rw [consumeStep_of_fail h]
    refine ⟨hb, fun _ => ⟨?_, by simp only; linarith⟩⟩
    simp only
    rw [max_eq_right (by linarith)]
  · rw [consumeStep_of_succeed h]
    refine ⟨hb, fun hfa => ?_⟩
    simp at hfa

/-- C10: with a valid config (`maxRequests > 0`, `windowMs > 0`) and a call
time `now` at or after the addressed bucket's `lastRefill`, every
`checkLimit` result satisfies `resetAt > now`, and a refused call carries
`retryAfter = some (resetAt - now)` with `resetAt - now > 0`, so the
`max 0 _` clamp never alters the returned value. -/
theorem result_resetAt_future (cfg : RateLimitConfig) (identifier : String)
    (now : Int) (s : Buckets)
    (hmax : 0 < cfg.maxRequests) (hwin : 0 < cfg.windowMs)
    (hlr : ∀ kv ∈ s, kv.1 = identifier → (kv.2 : BucketEntry).lastRefill ≤ now) :
    now < (checkLimit cfg identifier now s).1.resetAt ∧
    ((checkLimit cfg identifier now s).1.allowed = false →
      (checkLimit cfg identifier now s).1.retryAfter =
        some ((checkLimit cfg identifier now s).1.resetAt - now) ∧
      0 < (checkLimit cfg identifier now s).1.resetAt - now) := by
  cases hm : mapGet s identifier with
  | none =>
    rw [checkLimit_eq_of_none hm, refillBucket_freshBucket]
    exact consumeStep_resetAt_future (by simp only [freshBucket]; linarith)
  | some b =>
    have hble : b.lastRefill ≤ now := hlr _ (mapGet_mem hm) rfl
    rw [checkLimit_eq_of_some hm]
    rcases le_or_lt (Int.fdiv (now - b.lastRefill) cfg.windowMs * cfg.maxRequests) 0
      with hrc | hrc
    · rw [refillBucket_of_no_refill hrc]
      apply consumeStep_resetAt_future
      by_contra hcon
      have hwle : cfg.windowMs ≤ now - b.lastRefill := by linarith
      have h1 : 1 ≤ Int.fdiv (now - b.lastRefill) cfg.windowMs :=
        one_le_fdiv hwin hwle
      nlinarith
    · rw [refillBucket_of_refill hrc]
      exact consumeStep_resetAt_future (by simp only; linarith)

/-- Witness for C10: a refused call at `now = 5` on a bucket last refilled
at time 0 (window 1000) reports `resetAt = 1000 > 5` and
`retryAfter = some 995 = some (resetAt - now)`. -/
theorem result_resetAt_future_witness :
    (5 : Int) < (checkLimit ⟨1, 1000, 0⟩ "k" 5 [("k", ⟨0, 0, 1⟩)]).1.resetAt ∧
    (checkLimit ⟨1, 1000, 0⟩ "k" 5 [("k", ⟨0, 0, 1⟩)]).1.retryAfter =
      some ((checkLimit ⟨1, 1000, 0⟩ "k" 5 [("k", ⟨0, 0, 1⟩)]).1.resetAt - 5) := by
  have h := result_resetAt_future ⟨1, 1000, 0⟩ "k" 5 [("k", ⟨0, 0, 1⟩)]
    (by decide) (by decide) (by decide)
  exact ⟨h.1, (h.2 (by decide)).1⟩

end RateLimiterModel
